import Mathlib

/-!
Formal model of the todo application in `src/app/page.tsx`.

The application keeps its whole state in React `useState` hooks inside the
`TodoApp` component: the task list `todos`, the transient input fields
(`newTitle`, `newTags`, `newColor`, `newDueDate`, `newDueTime`), the toast
queue `notifications` and the platform `notificationPermission`.  All
mutations are sequential (single UI thread), so the component is modelled as
a state machine: a `AppState` record and a `step` function over user/timer
events.

Timestamps (`Date` values and `Date.now()`) are modelled as natural numbers
(milliseconds); `Date` comparison in the source is by numeric value, so this
is faithful.  Task identifiers are produced by `Date.now().toString()`; since
decimal printing of numbers is injective and the program only ever compares
identifiers for equality, identifiers are modelled by the underlying
timestamp number itself.  The construction `new Date(dateStr + "T" + timeStr)`
is modelled by an arbitrary parameter `parse : String → String → Nat`
(the theorems hold for every date parser).
-/

/-- A task record, mirroring `interface Todo` in `src/app/page.tsx`:
`id: string` (decimal print of `Date.now()`, modelled by the number),
`title: string`, `completed: boolean`, `tags: string[]`, `color: string`,
`dueDate?: Date` (optional, modelled as optional millisecond timestamp),
`reminderShown?: boolean` (every creation site sets it to `false`). -/
structure Todo where
  id : Nat
  title : String
  completed : Bool
  tags : List String
  color : String
  dueDate : Option Nat
  reminderShown : Bool
deriving DecidableEq, Repr

/-- The browser notification-permission state (`NotificationPermission`):
`"default"` (not yet requested), `"granted"`, `"denied"`. -/
inductive Permission where
  | default
  | granted
  | denied
deriving DecidableEq, Repr

/-- The component state: the `useState` hooks of `TodoApp`. -/
structure AppState where
  todos : List Todo
  newTitle : String
  newTags : String
  newColor : String
  newDueDate : String
  newDueTime : String
  notifications : List String
  notificationPermission : Permission
deriving DecidableEq, Repr

/-- The initial hook values: `useState<Todo[]>([])`, `useState("")` for the
text fields, `useState("gray")` for the color, `useState<string[]>([])` for
notifications, `useState<NotificationPermission>("default")`. -/
def initState : AppState :=
  { todos := []
    newTitle := ""
    newTags := ""
    newColor := "gray"
    newDueDate := ""
    newDueTime := ""
    notifications := []
    notificationPermission := Permission.default }

/-- The reminder eligibility test from `checkReminders`:
`todo.dueDate && !todo.reminderShown && !todo.completed && todo.dueDate <= now`.
(A present `Date` object is always truthy, so the first conjunct is a
presence test.) -/
def eligible (now : Nat) (t : Todo) : Bool :=
  match t.dueDate with
  | none => false
  | some d => !t.reminderShown && !t.completed && decide (d ≤ now)

/-- Per-task effect of one `checkReminders` pass on the task itself:
an eligible task is returned as `{ ...todo, reminderShown: true }`,
any other task is returned unchanged. -/
def tickTodo (now : Nat) (t : Todo) : Todo :=
  if eligible now t then { t with reminderShown := true } else t

/-- Per-task toast message of one `checkReminders` pass: an eligible task
pushes `` `Reminder: ${todo.title}` `` onto the notification queue, any
other task pushes nothing. -/
def tickMsg (now : Nat) (t : Todo) : Option String :=
  if eligible now t then some ("Reminder: " ++ t.title) else none

/-- One tick of the reminder monitor (`checkReminders`, run by
`setInterval(checkReminders, 1000)`): maps `tickTodo` over the task list and
appends, in task-list order, the message of every eligible task to
`notifications` (the source pushes each message with
`setNotifications(prev => [...prev, message])` inside the same `map` pass).
The `new Notification(...)` branch (system notification when permission is
`"granted"`) touches no component state and is therefore not recorded. -/
def checkReminders (now : Nat) (s : AppState) : AppState :=
  { s with
    todos := s.todos.map (tickTodo now)
    notifications := s.notifications ++ s.todos.filterMap (tickMsg now) }

/-- JavaScript `s.split(",")` on the character list: splits at every comma,
keeping empty pieces (so `"a,".split(",")` is `["a", ""]` and
`"".split(",")` is `[""]`). -/
def splitCommaAux : List Char → List (List Char)
  | [] => [[]]
  | c :: cs =>
      let r := splitCommaAux cs
      if c = ',' then [] :: r
      else
        match r with
        | [] => [[c]]
        | g :: gs => (c :: g) :: gs

/-- JavaScript `s.split(",")`. -/
def jsSplitComma (s : String) : List String :=
  (splitCommaAux s.data).map String.mk

/-- JavaScript `s.trim()` on the character list: drop whitespace from both
ends. -/
def trimChars (cs : List Char) : List Char :=
  ((cs.dropWhile Char.isWhitespace).reverse.dropWhile Char.isWhitespace).reverse

/-- JavaScript `s.trim()`. -/
def jsTrim (s : String) : String :=
  String.mk (trimChars s.data)

/-- Tag parsing in `addTodo`:
`newTags.split(",").map(tag => tag.trim()).filter(tag => tag)` —
split on commas, trim each piece, keep the truthy (non-empty) ones. -/
def parseTags (raw : String) : List String :=
  ((jsSplitComma raw).map jsTrim).filter (fun t => !t.isEmpty)

/-- `requestNotificationPermission`: when the platform has a `Notification`
API (`hasAPI`) and permission is still `"default"`, ask the platform and
store its answer `result`; otherwise leave the state unchanged. -/
def requestNotificationPermission (hasAPI : Bool) (result : Permission)
    (s : AppState) : AppState :=
  if hasAPI ∧ s.notificationPermission = Permission.default then
    { s with notificationPermission := result }
  else s

/-- `addTodo`, called at time `now` (`Date.now()`), with `parse` modelling
`new Date(dateStr + "T" + timeStr).getTime()` and `permResult` the
platform's answer should permission be requested:
* `if (!newTitle.trim()) return` — empty trimmed title is a no-op;
* a due timestamp is built only when both `newDueDate` and `newDueTime` are
  non-empty, in which case permission is requested first;
* the new task gets `id = Date.now()`, the trimmed title, `completed: false`,
  the parsed tags, the selected color and `reminderShown: false`, and is
  appended to the list; all input fields are reset. -/
def addTodo (hasAPI : Bool) (parse : String → String → Nat) (now : Nat)
    (permResult : Permission) (s : AppState) : AppState :=
  if jsTrim s.newTitle = "" then s
  else
    let dueDate : Option Nat :=
      if s.newDueDate ≠ "" ∧ s.newDueTime ≠ "" then
        some (parse s.newDueDate s.newDueTime)
      else none
    let s1 :=
      if s.newDueDate ≠ "" ∧ s.newDueTime ≠ "" then
        requestNotificationPermission hasAPI permResult s
      else s
    let todo : Todo :=
      { id := now
        title := jsTrim s.newTitle
        completed := false
        tags := parseTags s.newTags
        color := s.newColor
        dueDate := dueDate
        reminderShown := false }
    { s1 with
      todos := s1.todos ++ [todo]
      newTitle := ""
      newTags := ""
      newColor := "gray"
      newDueDate := ""
      newDueTime := "" }

/-- `toggleTodo`:
`prev.map(todo => todo.id === id ? { ...todo, completed: !todo.completed } : todo)`. -/
def toggleTodo (id : Nat) (l : List Todo) : List Todo :=
  l.map (fun t => if t.id = id then { t with completed := !t.completed } else t)

/-- `deleteTodo`: `prev.filter(todo => todo.id !== id)`. -/
def deleteTodo (id : Nat) (l : List Todo) : List Todo :=
  l.filter (fun t => t.id ≠ id)

/-- The events that drive the component: the input `onChange` handlers, the
add action, the per-task checkbox and delete button, and the 1-second
reminder-monitor tick.  `add` carries the value of `Date.now()` at the call
and the platform's permission answer (used only if permission is actually
requested); `tick` carries the value of `new Date()` at the tick. -/
inductive Event where
  | setTitle (v : String)
  | setTags (v : String)
  | setColor (v : String)
  | setDueDate (v : String)
  | setDueTime (v : String)
  | add (now : Nat) (permResult : Permission)
  | toggle (id : Nat)
  | delete (id : Nat)
  | tick (now : Nat)
deriving DecidableEq, Repr

/-- One transition of the component. -/
def step (hasAPI : Bool) (parse : String → String → Nat) :
    Event → AppState → AppState
  | Event.setTitle v, s => { s with newTitle := v }
  | Event.setTags v, s => { s with newTags := v }
  | Event.setColor v, s => { s with newColor := v }
  | Event.setDueDate v, s => { s with newDueDate := v }
  | Event.setDueTime v, s => { s with newDueTime := v }
  | Event.add now r, s => addTodo hasAPI parse now r s
  | Event.toggle id, s => { s with todos := toggleTodo id s.todos }
  | Event.delete id, s => { s with todos := deleteTodo id s.todos }
  | Event.tick now, s => checkReminders now s

/-- Run a sequence of events. -/
def run (hasAPI : Bool) (parse : String → String → Nat)
    (tr : List Event) (s : AppState) : AppState :=
  tr.foldl (fun s e => step hasAPI parse e s) s

/-!
The toast-dismissal subsystem (`useEffect` over `[notifications]`):

```
useEffect(() => {
  if (notifications.length > 0) {
    const timer = setTimeout(() => { setNotifications(prev => prev.slice(1)) }, 5000)
    return () => clearTimeout(timer)
  }
}, [notifications])
```

Every change of `notifications` re-runs the effect: the cleanup cancels the
previously scheduled timeout, and a single new 5000 ms timeout is scheduled
iff the queue is non-empty.  When the timeout fires, the head of the queue
is dropped (`slice(1)`), which again re-runs the effect.  So the system
carries at most one pending timer, modelled as the absolute time at which
it will fire.
-/

/-- Queue plus the (at most one) pending dismissal timer, as an absolute
fire time in milliseconds. -/
structure NotifState where
  queue : List String
  timer : Option Nat
deriving DecidableEq, Repr

/-- Re-running the dismissal effect at time `t` over queue `q`: the old
timeout is cancelled, and a fresh `setTimeout(..., 5000)` is installed iff
the queue is non-empty. -/
def notifEffect (t : Nat) (q : List String) : Option Nat :=
  if q.isEmpty then none else some (t + 5000)

/-- Events of the dismissal subsystem: an insertion into the queue (from
`checkReminders`) at time `t`, or the pending timeout firing at time `t`. -/
inductive NEvent where
  | enqueue (t : Nat) (msg : String)
  | fire (t : Nat)
deriving DecidableEq, Repr

/-- One transition of the dismissal subsystem.  An `enqueue` appends and
re-runs the effect (restarting the single timer); a `fire` is only effective
when it matches the pending timer, in which case the head is dropped
(`prev.slice(1)`) and the effect re-runs. -/
def nstep : NEvent → NotifState → NotifState
  | NEvent.enqueue t m, s =>
      let q := s.queue ++ [m]
      { queue := q, timer := notifEffect t q }
  | NEvent.fire t, s =>
      if s.timer = some t then
        let q := s.queue.drop 1
        { queue := q, timer := notifEffect t q }
      else s

/-- Run a sequence of dismissal-subsystem events. -/
def nrun (tr : List NEvent) (s : NotifState) : NotifState :=
  tr.foldl (fun s e => nstep e s) s

/-! ## Helper lemmas -/

theorem tickTodo_reminderShown (now : Nat) (t : Todo) :
    (tickTodo now t).reminderShown = (t.reminderShown || eligible now t) := by
  unfold tickTodo
  by_cases h : eligible now t = true
  · have hf : t.reminderShown = false := by
      unfold eligible at h
      cases hd : t.dueDate with
      | none => rw [hd] at h; exact absurd h (by simp)
      | some d =>
          rw [hd] at h
          simp only [Bool.and_eq_true, Bool.not_eq_true'] at h
          exact h.1.1
    simp [h, hf]
  · simp only [Bool.not_eq_true] at h
    simp [h]

theorem tickTodo_id (now : Nat) (t : Todo) : (tickTodo now t).id = t.id := by
  unfold tickTodo; split <;> rfl

theorem tickTodo_completed (now : Nat) (t : Todo) :
    (tickTodo now t).completed = t.completed := by
  unfold tickTodo; split <;> rfl

theorem tickTodo_of_not_eligible (now : Nat) (t : Todo)
    (h : eligible now t = false) : tickTodo now t = t := by
  unfold tickTodo; simp [h]

theorem tickTodo_of_eligible (now : Nat) (t : Todo)
    (h : eligible now t = true) : tickTodo now t = { t with reminderShown := true } := by
  unfold tickTodo; simp [h]

theorem tickMsg_of_not_eligible (now : Nat) (t : Todo)
    (h : eligible now t = false) : tickMsg now t = none := by
  unfold tickMsg; simp [h]

theorem eligible_true_iff (now : Nat) (t : Todo) :
    eligible now t = true ↔
      (∃ d, t.dueDate = some d ∧ d ≤ now) ∧
        t.reminderShown = false ∧ t.completed = false := by
  unfold eligible
  cases hd : t.dueDate with
  | none => simp
  | some d =>
      simp only [Bool.and_eq_true, Bool.not_eq_true', decide_eq_true_eq]
      constructor
      · rintro ⟨⟨h1, h2⟩, h3⟩
        exact ⟨⟨d, rfl, h3⟩, h1, h2⟩
      · rintro ⟨⟨d', hd', hle⟩, h1, h2⟩
        cases hd'
        exact ⟨⟨h1, h2⟩, hle⟩

theorem eligible_of_completed (now : Nat) (t : Todo)
    (h : t.completed = true) : eligible now t = false := by
  unfold eligible
  cases t.dueDate with
  | none => rfl
  | some d => simp [h]

theorem filterMap_tickMsg (now : Nat) (l : List Todo) :
    l.filterMap (tickMsg now) =
      (l.filter (eligible now)).map (fun t => "Reminder: " ++ t.title) := by
  induction l with
  | nil => rfl
  | cons t l ih =>
      rw [List.filterMap_cons, List.filter_cons]
      by_cases h : eligible now t = true
      · rw [h]
        have : tickMsg now t = some ("Reminder: " ++ t.title) := by
          unfold tickMsg; simp [h]
        simp [this, ih]
      · simp only [Bool.not_eq_true] at h
        rw [h]
        simp [tickMsg_of_not_eligible now t h, ih]

theorem map_eq_self_of_forall {α : Type} (l : List α) (f : α → α)
    (h : ∀ x ∈ l, f x = x) : l.map f = l := by
  induction l with
  | nil => rfl
  | cons a l ih =>
      simp only [List.map_cons, h a (by simp)]
      rw [ih (fun x hx => h x (by simp [hx]))]

theorem toggleTodo_getElem? (id : Nat) (l : List Todo) (i : Nat) :
    (toggleTodo id l)[i]? =
      (l[i]?).map
        (fun t => if t.id = id then { t with completed := !t.completed } else t) := by
  unfold toggleTodo
  exact List.getElem?_map _ l i

theorem toggleTodo_noop (id : Nat) (l : List Todo) (h : ∀ t ∈ l, t.id ≠ id) :
    toggleTodo id l = l := by
  unfold toggleTodo
  exact map_eq_self_of_forall l _ (fun t ht => by simp [h t ht])

theorem deleteTodo_sublist (id : Nat) (l : List Todo) :
    (deleteTodo id l).Sublist l := List.filter_sublist l

theorem mem_deleteTodo (id : Nat) (l : List Todo) (t : Todo) :
    t ∈ deleteTodo id l ↔ t ∈ l ∧ t.id ≠ id := by
  unfold deleteTodo
  rw [List.mem_filter]
  simp

theorem deleteTodo_noop (id : Nat) (l : List Todo) (h : ∀ t ∈ l, t.id ≠ id) :
    deleteTodo id l = l := by
  unfold deleteTodo
  exact List.filter_eq_self.mpr (fun t ht => by simp [h t ht])

/-- Events that neither insert into nor remove from the task list, so that
list positions are stable across them: everything except `add` and
`delete`. -/
def posStable : Event → Bool
  | Event.add _ _ => false
  | Event.delete _ => false
  | _ => true

theorem requestNotificationPermission_todos (hasAPI : Bool) (r : Permission)
    (s : AppState) : (requestNotificationPermission hasAPI r s).todos = s.todos := by
  unfold requestNotificationPermission
  split <;> rfl

theorem stable_step_flag_mono (hasAPI : Bool) (parse : String → String → Nat)
    (e : Event) (s : AppState) (i : Nat) (he : posStable e = true)
    (h : (s.todos[i]?).map (fun t => t.reminderShown) = some true) :
    (((step hasAPI parse e s).todos[i]?).map (fun t => t.reminderShown)) = some true := by
  cases e with
  | setTitle v => exact h
  | setTags v => exact h
  | setColor v => exact h
  | setDueDate v => exact h
  | setDueTime v => exact h
  | add now r => exact absurd he (by simp [posStable])
  | delete id => exact absurd he (by simp [posStable])
  | toggle id =>
      show (((toggleTodo id s.todos)[i]?).map (fun t => t.reminderShown)) = some true
      rw [toggleTodo_getElem?]
      cases hs : s.todos[i]? with
      | none => rw [hs] at h; exact absurd h (by simp)
      | some t =>
          rw [hs] at h
          simp only [Option.map_some'] at h ⊢
          simp only [Option.some.injEq] at h
          split <;> simpa using h
  | tick now =>
      show (((s.todos.map (tickTodo now))[i]?).map (fun t => t.reminderShown)) = some true
      rw [List.getElem?_map]
      cases hs : s.todos[i]? with
      | none => rw [hs] at h; exact absurd h (by simp)
      | some t =>
          rw [hs] at h
          simp only [Option.map_some', Option.some.injEq] at h ⊢
          simp [tickTodo_reminderShown, h]

theorem stable_run_flag_mono (hasAPI : Bool) (parse : String → String → Nat)
    (tr : List Event) (s : AppState) (htr : ∀ e ∈ tr, posStable e = true) (i : Nat)
    (h : (s.todos[i]?).map (fun t => t.reminderShown) = some true) :
    (((run hasAPI parse tr s).todos[i]?).map (fun t => t.reminderShown)) = some true := by
  induction tr generalizing s with
  | nil => exact h
  | cons e tr ih =>
      exact ih (step hasAPI parse e s) (fun x hx => htr x (by simp [hx]))
        (stable_step_flag_mono hasAPI parse e s i (htr e (by simp)) h)

/-- `addsId id e` holds when `e` is an add occurring at millisecond `id`,
i.e. an add that would create a task carrying identifier `id`. -/
def addsId (id : Nat) : Event → Bool
  | Event.add n _ => n == id
  | _ => false

theorem no_id_step (hasAPI : Bool) (parse : String → String → Nat) (e : Event)
    (s : AppState) (id : Nat) (he : addsId id e = false)
    (h : ∀ t ∈ s.todos, t.id ≠ id) :
    ∀ t ∈ (step hasAPI parse e s).todos, t.id ≠ id := by
  cases e with
  | setTitle v => exact h
  | setTags v => exact h
  | setColor v => exact h
  | setDueDate v => exact h
  | setDueTime v => exact h
  | toggle j =>
      intro t ht
      obtain ⟨t0, ht0, rfl⟩ := List.mem_map.mp ht
      have hid : t0.id ≠ id := h t0 ht0
      split <;> simpa using hid
  | delete j =>
      intro t ht
      exact h t ((mem_deleteTodo j s.todos t).mp ht).1
  | tick now =>
      intro t ht
      obtain ⟨t0, ht0, rfl⟩ := List.mem_map.mp ht
      rw [tickTodo_id]
      exact h t0 ht0
  | add n r =>
      intro t ht
      simp only [addsId, beq_eq_false_iff_ne, ne_eq] at he
      show t.id ≠ id
      have ht' : t ∈ (addTodo hasAPI parse n r s).todos := ht
      unfold addTodo at ht'
      by_cases hT : jsTrim s.newTitle = ""
      · rw [if_pos hT] at ht'
        exact h t ht'
      · rw [if_neg hT] at ht'
        simp only [List.mem_append, List.mem_singleton] at ht'
        rcases ht' with ht' | ht'
        · split at ht'
          · rw [requestNotificationPermission_todos] at ht'
            exact h t ht'
          · exact h t ht'
        · rw [ht']
          exact he

theorem no_id_run (hasAPI : Bool) (parse : String → String → Nat)
    (tr : List Event) (s : AppState) (id : Nat)
    (htr : ∀ e ∈ tr, addsId id e = false)
    (h : ∀ t ∈ s.todos, t.id ≠ id) :
    ∀ t ∈ (run hasAPI parse tr s).todos, t.id ≠ id := by
  induction tr generalizing s with
  | nil => exact h
  | cons e tr ih =>
      exact ih (step hasAPI parse e s) (fun x hx => htr x (by simp [hx]))
        (no_id_step hasAPI parse e s id (htr e (by simp)) h)

/-- `togglesOrCollides id e` holds when `e` is a toggle of `id` or an add
occurring at millisecond `id` (which would create a second task carrying
identifier `id`). -/
def togglesOrCollides (id : Nat) : Event → Bool
  | Event.toggle i => i == id
  | Event.add n _ => n == id
  | _ => false

/-- Every task carrying identifier `id` is completed with its reminder flag
still clear. -/
def completedLatch (id : Nat) (s : AppState) : Prop :=
  ∀ t ∈ s.todos, t.id = id → (t.completed = true ∧ t.reminderShown = false)

theorem completedLatch_step (hasAPI : Bool) (parse : String → String → Nat)
    (e : Event) (s : AppState) (id : Nat) (he : togglesOrCollides id e = false)
    (h : completedLatch id s) : completedLatch id (step hasAPI parse e s) := by
  cases e with
  | setTitle v => exact h
  | setTags v => exact h
  | setColor v => exact h
  | setDueDate v => exact h
  | setDueTime v => exact h
  | toggle j =>
      intro t ht hid
      simp only [togglesOrCollides, beq_eq_false_iff_ne, ne_eq] at he
      obtain ⟨t0, ht0, rfl⟩ := List.mem_map.mp ht
      have hid0 : t0.id = id := by
        revert hid
        split <;> simp_all
      have hj : ¬(t0.id = j) := by rw [hid0]; intro hc; exact he hc.symm
      rw [if_neg hj] at hid ⊢
      exact h t0 ht0 hid0
  | delete j =>
      intro t ht
      exact h t ((mem_deleteTodo j s.todos t).mp ht).1
  | tick now =>
      intro t ht hid
      obtain ⟨t0, ht0, rfl⟩ := List.mem_map.mp ht
      have hid0 : t0.id = id := by rw [← tickTodo_id now t0]; exact hid
      obtain ⟨hc, hr⟩ := h t0 ht0 hid0
      rw [tickTodo_of_not_eligible now t0 (eligible_of_completed now t0 hc)]
      exact ⟨hc, hr⟩
  | add n r =>
      intro t ht hid
      simp only [togglesOrCollides, beq_eq_false_iff_ne, ne_eq] at he
      have ht' : t ∈ (addTodo hasAPI parse n r s).todos := ht
      unfold addTodo at ht'
      by_cases hT : jsTrim s.newTitle = ""
      · rw [if_pos hT] at ht'
        exact h t ht' hid
      · rw [if_neg hT] at ht'
        simp only [List.mem_append, List.mem_singleton] at ht'
        rcases ht' with ht' | ht'
        · split at ht'
          · rw [requestNotificationPermission_todos] at ht'
            exact h t ht' hid
          · exact h t ht' hid
        · rw [ht'] at hid
          exact absurd hid he

theorem completedLatch_run (hasAPI : Bool) (parse : String → String → Nat)
    (tr : List Event) (s : AppState) (id : Nat)
    (htr : ∀ e ∈ tr, togglesOrCollides id e = false)
    (h : completedLatch id s) : completedLatch id (run hasAPI parse tr s) := by
  induction tr generalizing s with
  | nil => exact h
  | cons e tr ih =>
      exact ih (step hasAPI parse e s) (fun x hx => htr x (by simp [hx]))
        (completedLatch_step hasAPI parse e s id (htr e (by simp)) h)

/-- The creation times (`Date.now()` values) of the add events of a trace,
in order: each add creates at most one task, whose identifier is this
value. -/
def addTimes : List Event → List Nat
  | [] => []
  | Event.add n _ :: tr => n :: addTimes tr
  | _ :: tr => addTimes tr

theorem ids_toggleTodo (id : Nat) (l : List Todo) :
    (toggleTodo id l).map (fun t => t.id) = l.map (fun t => t.id) := by
  unfold toggleTodo
  rw [List.map_map]
  exact List.map_congr_left (fun t ht => by simp only [Function.comp]; split <;> rfl)

theorem ids_tickTodo (now : Nat) (l : List Todo) :
    (l.map (tickTodo now)).map (fun t => t.id) = l.map (fun t => t.id) := by
  rw [List.map_map]
  exact List.map_congr_left
    (fun t ht => by simp only [Function.comp]; exact tickTodo_id now t)

theorem ids_run_sublist (hasAPI : Bool) (parse : String → String → Nat)
    (tr : List Event) (s : AppState) :
    ((run hasAPI parse tr s).todos.map (fun t => t.id)).Sublist
      (s.todos.map (fun t => t.id) ++ addTimes tr) := by
  induction tr generalizing s with
  | nil => simp [run, addTimes]
  | cons e tr ih =>
      refine (ih (step hasAPI parse e s)).trans ?_
      cases e with
      | setTitle v => exact List.Sublist.refl _
      | setTags v => exact List.Sublist.refl _
      | setColor v => exact List.Sublist.refl _
      | setDueDate v => exact List.Sublist.refl _
      | setDueTime v => exact List.Sublist.refl _
      | toggle j =>
          rw [show (step hasAPI parse (Event.toggle j) s).todos =
            toggleTodo j s.todos from rfl, ids_toggleTodo]
          exact List.Sublist.refl _
      | tick now =>
          rw [show (step hasAPI parse (Event.tick now) s).todos =
            s.todos.map (tickTodo now) from rfl, ids_tickTodo]
          exact List.Sublist.refl _
      | delete j =>
          exact (((deleteTodo_sublist j s.todos).map (fun t => t.id)).append_right
            (addTimes tr))
      | add n r =>
          show ((addTodo hasAPI parse n r s).todos.map (fun t => t.id) ++
            addTimes tr).Sublist (s.todos.map (fun t => t.id) ++ (n :: addTimes tr))
          unfold addTodo
          by_cases hT : jsTrim s.newTitle = ""
          · rw [if_pos hT]
            exact (List.sublist_cons_self n (addTimes tr)).append_left _
          · rw [if_neg hT]
            have hperm :
                (if s.newDueDate ≠ "" ∧ s.newDueTime ≠ "" then
                  requestNotificationPermission hasAPI r s else s).todos = s.todos := by
              split
              · exact requestNotificationPermission_todos hasAPI r s
              · rfl
            simp only [hperm, List.map_append, List.map_cons, List.map_nil,
              List.append_assoc, List.cons_append, List.nil_append]
            exact List.Sublist.refl _

/-- An example task used to instantiate theorems on concrete inputs. -/
def exTodo : Todo :=
  { id := 5, title := "x", completed := false, tags := [], color := "gray",
    dueDate := some 10, reminderShown := false }

/-- A one-element example task list. -/
def exTodoList : List Todo := [exTodo]

/-! ## Claims -/

/-- C1: the reminder flag is a one-way latch.  On a tick, a task's flag
becomes `flag || eligible` (so a set flag is never cleared, and a clear
flag is set exactly when the task is eligible); eligibility requires a
present due timestamp that has elapsed, `completed = false` and a
previously-false flag; `toggleTodo` never touches the flag; `deleteTodo`
keeps surviving tasks unchanged; `addTodo` only appends tasks whose flag
is `false`; and over any run of position-stable events a set flag stays
set, so the flag transitions false→true at most once and never back. -/
theorem reminderShown_latch :
    (∀ (now : Nat) (s : AppState) (i : Nat),
      ((checkReminders now s).todos[i]?).map (fun t => t.reminderShown) =
        (s.todos[i]?).map (fun t => (t.reminderShown || eligible now t))) ∧
    (∀ (now : Nat) (t : Todo), eligible now t = true →
      t.reminderShown = false ∧ t.completed = false ∧
        ∃ d, t.dueDate = some d ∧ d ≤ now) ∧
    (∀ (id : Nat) (l : List Todo) (i : Nat),
      ((toggleTodo id l)[i]?).map (fun t => t.reminderShown) =
        (l[i]?).map (fun t => t.reminderShown)) ∧
    (∀ (id : Nat) (l : List Todo), (deleteTodo id l).Sublist l) ∧
    (∀ (hasAPI : Bool) (parse : String → String → Nat) (now : Nat)
        (r : Permission) (s : AppState) (t : Todo),
      t ∈ (addTodo hasAPI parse now r s).todos →
        t ∈ s.todos ∨ t.reminderShown = false) ∧
    (∀ (hasAPI : Bool) (parse : String → String → Nat) (now : Nat)
        (r : Permission) (s : AppState) (i : Nat), i < s.todos.length →
      (addTodo hasAPI parse now r s).todos[i]? = s.todos[i]?) ∧
    (∀ (hasAPI : Bool) (parse : String → String → Nat) (tr : List Event)
        (s : AppState), (∀ e ∈ tr, posStable e = true) → ∀ i : Nat,
      (s.todos[i]?).map (fun t => t.reminderShown) = some true →
      ((run hasAPI parse tr s).todos[i]?).map (fun t => t.reminderShown) = some true) := by
  refine ⟨?_, ?_, ?_, deleteTodo_sublist, ?_, ?_, stable_run_flag_mono⟩
  · intro now s i
    show ((s.todos.map (tickTodo now))[i]?).map (fun t => t.reminderShown) = _
    rw [List.getElem?_map]
    cases s.todos[i]? with
    | none => rfl
    | some t => simp [tickTodo_reminderShown]
  · intro now t h
    obtain ⟨⟨d, hd, hle⟩, h1, h2⟩ := (eligible_true_iff now t).mp h
    exact ⟨h1, h2, d, hd, hle⟩
  · intro id l i
    rw [toggleTodo_getElem?]
    cases l[i]? with
    | none => rfl
    | some t => simp only [Option.map_some']; split <;> rfl
  · intro hasAPI parse now r s t ht
    unfold addTodo at ht
    by_cases hT : jsTrim s.newTitle = ""
    · rw [if_pos hT] at ht
      exact Or.inl ht
    · rw [if_neg hT] at ht
      simp only [List.mem_append, List.mem_singleton] at ht
      rcases ht with ht | ht
      · left
        split at ht
        · rwa [requestNotificationPermission_todos] at ht
        · exact ht
      · right
        rw [ht]
  · intro hasAPI parse now r s i hi
    unfold addTodo
    by_cases hT : jsTrim s.newTitle = ""
    · rw [if_pos hT]
    · rw [if_neg hT]
      have hperm :
          (if s.newDueDate ≠ "" ∧ s.newDueTime ≠ "" then
            requestNotificationPermission hasAPI r s else s).todos = s.todos := by
        split
        · exact requestNotificationPermission_todos hasAPI r s
        · rfl
      show ((if s.newDueDate ≠ "" ∧ s.newDueTime ≠ "" then
        requestNotificationPermission hasAPI r s else s).todos ++ _)[i]? = _
      rw [hperm, List.getElem?_append, if_pos hi]

/-- Witness for C1: a set flag survives a later tick and toggle, and a
concrete eligible task satisfies the latch conditions. -/
theorem reminderShown_latch_witness :
    (((run false (fun _ _ => 0) [Event.tick 20, Event.toggle 5]
        { initState with
          todos := [{ exTodo with reminderShown := true }] }).todos[0]?).map
      (fun t => t.reminderShown) = some true) ∧
      (exTodo.reminderShown = false ∧ exTodo.completed = false ∧
        ∃ d, exTodo.dueDate = some d ∧ d ≤ 10) :=
  ⟨reminderShown_latch.2.2.2.2.2.2 false (fun _ _ => 0)
      [Event.tick 20, Event.toggle 5]
      { initState with todos := [{ exTodo with reminderShown := true }] }
      (by decide) 0 (by decide),
    reminderShown_latch.2.1 10 exTodo (by decide)⟩

/-- C2: one monitor tick maps every task through `tickTodo` (an eligible
task gets its flag set, any other task is returned unchanged) and appends,
in task order, exactly the message `"Reminder: " ++ title` of every
eligible task to the notification queue; ineligible tasks contribute no
message. -/
theorem checkReminders_tick_spec :
    ∀ (now : Nat) (s : AppState),
      (checkReminders now s).notifications =
        s.notifications ++
          (s.todos.filter (eligible now)).map (fun t => "Reminder: " ++ t.title) ∧
      (∀ i : Nat,
        (checkReminders now s).todos[i]? = (s.todos[i]?).map (tickTodo now)) ∧
      (∀ t : Todo, eligible now t = true →
        tickTodo now t = { t with reminderShown := true } ∧
          tickMsg now t = some ("Reminder: " ++ t.title)) ∧
      (∀ t : Todo, eligible now t = false →
        tickTodo now t = t ∧ tickMsg now t = none) := by
  intro now s
  refine ⟨?_, ?_, ?_, ?_⟩
  · show s.notifications ++ s.todos.filterMap (tickMsg now) = _
    rw [filterMap_tickMsg]
  · intro i
    exact List.getElem?_map (tickTodo now) s.todos i
  · intro t h
    refine ⟨tickTodo_of_eligible now t h, ?_⟩
    unfold tickMsg
    simp [h]
  · intro t h
    exact ⟨tickTodo_of_not_eligible now t h, tickMsg_of_not_eligible now t h⟩

/-- Witness for C2: a concrete tick on an eligible task enqueues exactly
its reminder message and sets its flag. -/
theorem checkReminders_tick_spec_witness :
    (checkReminders 10 { initState with todos := exTodoList }).notifications =
        ["Reminder: x"] ∧
      tickTodo 10 exTodo = { exTodo with reminderShown := true } ∧
      tickMsg 10 { exTodo with completed := true } = none := by
  refine ⟨?_,
    ((checkReminders_tick_spec 10 { initState with todos := exTodoList }).2.2.1
        exTodo (by decide)).1,
    ((checkReminders_tick_spec 10 initState).2.2.2
        { exTodo with completed := true } (by decide)).2⟩
  rw [(checkReminders_tick_spec 10 { initState with todos := exTodoList }).1]
  decide

/-- C3 counterexample: completing a task before its due time does NOT
suppress its reminder permanently.  A task due at 10 is completed by a
toggle before any tick reaches its due time (first conjunct: completed,
flag clear); after a second toggle returns it to incomplete, the tick at
11 sets its reminder flag and enqueues its notification (second and third
conjuncts) — so a future monitor tick did fire the reminder. -/
theorem completed_suppression_ctrex :
    ((run false (fun _ _ => 10)
        [Event.setTitle "x", Event.setDueDate "2025-01-01",
          Event.setDueTime "09:00", Event.add 1 Permission.denied,
          Event.toggle 1] initState).todos.map
        (fun t => (t.id, t.completed, t.reminderShown, t.dueDate)) =
      [(1, true, false, some 10)]) ∧
      ((run false (fun _ _ => 10)
        [Event.setTitle "x", Event.setDueDate "2025-01-01",
          Event.setDueTime "09:00", Event.add 1 Permission.denied,
          Event.toggle 1, Event.toggle 1, Event.tick 11] initState).todos.map
        (fun t => t.reminderShown) = [true]) ∧
      (run false (fun _ _ => 10)
        [Event.setTitle "x", Event.setDueDate "2025-01-01",
          Event.setDueTime "09:00", Event.add 1 Permission.denied,
          Event.toggle 1, Event.toggle 1, Event.tick 11] initState).notifications =
        ["Reminder: x"] := by decide

/-- C3 (amended): once every task carrying identifier `id` is completed
with its flag clear, then along any continuation that neither toggles `id`
nor adds a task at millisecond `id`, that latch is preserved, and at every
monitor tick of the continuation every task carrying `id` is ineligible
and contributes no notification — completion suppresses the reminder for
as long as the task is not toggled back to incomplete. -/
theorem completed_suppression_amended :
    ∀ (hasAPI : Bool) (parse : String → String → Nat) (id : Nat)
      (tr : List Event) (s : AppState),
      completedLatch id s →
      (∀ e ∈ tr, togglesOrCollides id e = false) →
      completedLatch id (run hasAPI parse tr s) ∧
        (∀ (pre : List Event) (now : Nat) (suf : List Event),
          tr = pre ++ Event.tick now :: suf →
          ∀ t ∈ (run hasAPI parse pre s).todos, t.id = id →
            eligible now t = false ∧ tickMsg now t = none) := by
  intro hasAPI parse id tr s h htr
  refine ⟨completedLatch_run hasAPI parse tr s id htr h, ?_⟩
  intro pre now suf hsplit t ht hid
  have hpre : ∀ e ∈ pre, togglesOrCollides id e = false := by
    intro e hepre
    exact htr e (by rw [hsplit]; exact List.mem_append_left _ hepre)
  have hlatch := completedLatch_run hasAPI parse pre s id hpre h
  obtain ⟨hc, _⟩ := hlatch t ht hid
  have helig := eligible_of_completed now t hc
  exact ⟨helig, tickMsg_of_not_eligible now t helig⟩

/-- Witness for the amended C3: a concrete completed task stays latched
across a tick past its due time, where it is ineligible. -/
theorem completed_suppression_witness :
    completedLatch 5 (run false (fun _ _ => 0) [Event.tick 20]
        { initState with todos := [{ exTodo with completed := true }] }) ∧
      eligible 20 { exTodo with completed := true } = false := by
  have h := completed_suppression_amended false (fun _ _ => 0) 5 [Event.tick 20]
    { initState with todos := [{ exTodo with completed := true }] }
    (by unfold completedLatch; decide) (by decide)
  exact ⟨h.1,
    (h.2 [] 20 [] rfl { exTodo with completed := true } (by decide) (by decide)).1⟩

/-- C9: `deleteTodo id` removes exactly the tasks whose identifier equals
`id` (membership characterization) and is a no-op when none matches;
after the delete event, along any continuation that does not add a task at
millisecond `id`, no task carrying `id` is ever in the list again — so it
appears in no tick's eligibility evaluation and in no rendered list. -/
theorem deleteTodo_spec :
    (∀ (id : Nat) (l : List Todo),
      ((∀ t ∈ l, t.id ≠ id) → deleteTodo id l = l) ∧
        (∀ t : Todo, t ∈ deleteTodo id l ↔ t ∈ l ∧ t.id ≠ id)) ∧
      (∀ (hasAPI : Bool) (parse : String → String → Nat) (id : Nat)
          (s : AppState) (tr : List Event),
        (∀ e ∈ tr, addsId id e = false) →
        ∀ t ∈ (run hasAPI parse tr
          (step hasAPI parse (Event.delete id) s)).todos, t.id ≠ id) := by
  refine ⟨fun id l => ⟨deleteTodo_noop id l, mem_deleteTodo id l⟩, ?_⟩
  intro hasAPI parse id s tr htr
  refine no_id_run hasAPI parse tr _ id htr ?_
  intro t ht
  exact ((mem_deleteTodo id s.todos t).mp ht).2

/-- Witness for C9: deleting a missing identifier is a no-op, and after a
concrete delete no task carries the deleted identifier across a tick. -/
theorem deleteTodo_spec_witness :
    deleteTodo 9 exTodoList = exTodoList ∧
      (∀ t ∈ (run false (fun _ _ => 0) [Event.tick 20]
        (step false (fun _ _ => 0) (Event.delete 5)
          { initState with todos := exTodoList })).todos, t.id ≠ 5) :=
  ⟨(deleteTodo_spec.1 9 exTodoList).1 (by decide),
    deleteTodo_spec.2 false (fun _ _ => 0) 5
      { initState with todos := exTodoList } [Event.tick 20] (by decide)⟩

/-- C5 counterexample: identifiers are NOT unique in every reachable state.
`Date.now().toString()` is the identifier, so two adds in the same
millisecond (here both at 1000) create two distinct tasks (different
titles) carrying the same identifier. -/
theorem duplicate_ids_ctrex :
    (run false (fun _ _ => 0)
        [Event.setTitle "a", Event.add 1000 Permission.denied,
          Event.setTitle "b", Event.add 1000 Permission.denied] initState).todos.map
        (fun t => (t.id, t.title)) = [(1000, "a"), (1000, "b")] := by decide

/-- C5 (amended): identifiers are creation-time-derived and unique provided
all adds of the execution occur at pairwise-distinct `Date.now()` values:
then the identifier list is duplicate-free, and any two tasks at distinct
positions carry distinct identifiers. -/
theorem unique_ids_of_distinct_creation :
    ∀ (hasAPI : Bool) (parse : String → String → Nat) (tr : List Event),
      (addTimes tr).Nodup →
      ((run hasAPI parse tr initState).todos.map (fun t => t.id)).Nodup ∧
        (∀ (i j : Nat) (t u : Todo), i ≠ j →
          (run hasAPI parse tr initState).todos[i]? = some t →
          (run hasAPI parse tr initState).todos[j]? = some u →
          t.id ≠ u.id) := by
  intro hasAPI parse tr hnd
  have hsub := ids_run_sublist hasAPI parse tr initState
  rw [show initState.todos.map (fun t => t.id) = [] from rfl, List.nil_append] at hsub
  have hids : ((run hasAPI parse tr initState).todos.map (fun t => t.id)).Nodup :=
    hnd.sublist hsub
  refine ⟨hids, ?_⟩
  intro i j t u hij hi hj heq
  apply hij
  have hi' : ((run hasAPI parse tr initState).todos.map (fun t => t.id))[i]? =
      some t.id := by
    rw [List.getElem?_map, hi]; rfl
  have hj' : ((run hasAPI parse tr initState).todos.map (fun t => t.id))[j]? =
      some u.id := by
    rw [List.getElem?_map, hj]; rfl
  have hlen : i < ((run hasAPI parse tr initState).todos.map (fun t => t.id)).length := by
    rw [List.getElem?_eq_some] at hi'
    exact hi'.1
  exact List.getElem?_inj hlen hids (by rw [hi', hj', heq])

/-- Witness for the amended C5: two adds at distinct milliseconds produce
tasks with distinct, duplicate-free identifiers. -/
theorem unique_ids_witness :
    ((run false (fun _ _ => 0)
        [Event.setTitle "a", Event.add 1 Permission.denied,
          Event.setTitle "b", Event.add 2 Permission.denied] initState).todos.map
      (fun t => t.id)).Nodup ∧
      ({ id := 1, title := "a", completed := false, tags := [], color := "gray",
          dueDate := none, reminderShown := false } : Todo).id ≠
        ({ id := 2, title := "b", completed := false, tags := [], color := "gray",
            dueDate := none, reminderShown := false } : Todo).id := by
  have h := unique_ids_of_distinct_creation false (fun _ _ => 0)
    [Event.setTitle "a", Event.add 1 Permission.denied,
      Event.setTitle "b", Event.add 2 Permission.denied] (by decide)
  exact ⟨h.1, h.2 0 1 _ _ (by decide) (by decide) (by decide)⟩

/-- C4 counterexample: a queue entry is NOT removed 5 seconds after its own
insertion.  "A" is inserted at time 0; the claim says it leaves the queue
at 5000.  But after "B" is inserted at 3000 the single dismissal timer was
restarted to 8000, the timeout firing at 5000 does not exist (a `fire 5000`
is a no-op on this state), and "A" is still queued. -/
theorem notif_dismissal_ctrex :
    (nrun [NEvent.enqueue 0 "A", NEvent.enqueue 3000 "B"]
        { queue := [], timer := none }).queue = ["A", "B"] ∧
      (nrun [NEvent.enqueue 0 "A", NEvent.enqueue 3000 "B"]
        { queue := [], timer := none }).timer = some 8000 ∧
      nstep (NEvent.fire 5000)
          (nrun [NEvent.enqueue 0 "A", NEvent.enqueue 3000 "B"]
            { queue := [], timer := none }) =
        nrun [NEvent.enqueue 0 "A", NEvent.enqueue 3000 "B"]
          { queue := [], timer := none } := by decide

/-- C4 (amended): the dismissal `useEffect` keeps a single timer that is
restarted by every queue change: an insertion at time `t` appends at the
back and schedules the (only) removal at `t + 5000`; when the timer fires,
the front (oldest) entry is removed and the timer is rescheduled 5000 ms
later iff the queue is still non-empty.  So the front entry leaves the
queue 5 seconds after the most recent queue change, not 5 seconds after
its own insertion. -/
theorem notif_dismissal_amended :
    ∀ (s : NotifState) (t : Nat) (m : String),
      ((nstep (NEvent.enqueue t m) s).queue = s.queue ++ [m] ∧
        (nstep (NEvent.enqueue t m) s).timer = some (t + 5000)) ∧
      (s.timer = some t →
        (nstep (NEvent.fire t) s).queue = s.queue.drop 1 ∧
          (s.queue.drop 1 = [] → (nstep (NEvent.fire t) s).timer = none) ∧
          (s.queue.drop 1 ≠ [] →
            (nstep (NEvent.fire t) s).timer = some (t + 5000))) := by
  intro s t m
  refine ⟨⟨rfl, ?_⟩, ?_⟩
  · show notifEffect t (s.queue ++ [m]) = some (t + 5000)
    unfold notifEffect
    rw [if_neg (by simp)]
  · intro ht
    have hstep : nstep (NEvent.fire t) s =
        { queue := s.queue.drop 1, timer := notifEffect t (s.queue.drop 1) } := by
      show (if s.timer = some t then
        ({ queue := s.queue.drop 1,
           timer := notifEffect t (s.queue.drop 1) } : NotifState) else s) = _
      rw [if_pos ht]
    refine ⟨?_, ?_, ?_⟩
    · rw [hstep]
    · intro hq
      rw [hstep]
      show notifEffect t (s.queue.drop 1) = none
      unfold notifEffect
      rw [if_pos (by simp [hq])]
    · intro hq
      rw [hstep]
      show notifEffect t (s.queue.drop 1) = some (t + 5000)
      unfold notifEffect
      rw [if_neg (by simpa using hq)]

/-- Witness for the amended C4 on a concrete two-entry queue with a pending
timer at 7. -/
theorem notif_dismissal_witness :
    ((nstep (NEvent.enqueue 7 "C") { queue := ["A", "B"], timer := some 3 }).queue =
        ["A", "B", "C"] ∧
      (nstep (NEvent.enqueue 7 "C") { queue := ["A", "B"], timer := some 3 }).timer =
        some 5007) ∧
      ((nstep (NEvent.fire 7) { queue := ["A", "B"], timer := some 7 }).queue =
          ["B"] ∧
        (nstep (NEvent.fire 7) { queue := ["A", "B"], timer := some 7 }).timer =
          some 5007) := by
  have h1 := (notif_dismissal_amended { queue := ["A", "B"], timer := some 3 } 7 "C").1
  have h2 := (notif_dismissal_amended { queue := ["A", "B"], timer := some 7 } 7 "C").2 rfl
  exact ⟨⟨h1.1, h1.2⟩, ⟨h2.1, h2.2.2 (by decide)⟩⟩

/-- C6: `addTodo` derives the tag list by splitting the input on commas,
trimming each piece, and dropping empty results — every produced tag is
non-empty, the result is an order-preserving sublist of the trimmed pieces
(duplicates allowed, as `"a,a"` shows), and the input `"a, ,b ,"` yields
exactly `["a", "b"]`. -/
theorem parseTags_spec :
    (∀ raw : String, ∀ t ∈ parseTags raw, t ≠ "") ∧
    (∀ raw : String, (parseTags raw).Sublist ((jsSplitComma raw).map jsTrim)) ∧
    parseTags "a,a" = ["a", "a"] ∧
    parseTags "a, ,b ," = ["a", "b"] := by
  refine ⟨?_, ?_, by decide, by decide⟩
  · intro raw t ht
    unfold parseTags at ht
    have h := (List.mem_filter.mp ht).2
    intro he
    rw [he] at h
    exact absurd h (by decide)
  · intro raw
    exact List.filter_sublist _

/-- Witness for C6 at concrete inputs. -/
theorem parseTags_spec_witness :
    "a" ≠ "" ∧ parseTags "a, ,b ," = ["a", "b"] :=
  ⟨parseTags_spec.1 "a, ,b ," "a" (by decide), parseTags_spec.2.2.2⟩

/-- C7: when the title input is empty or whitespace-only after trimming,
the add action leaves the whole component state unchanged — no task is
created and no input field is reset. -/
theorem addTodo_blank_title_noop :
    ∀ (hasAPI : Bool) (parse : String → String → Nat) (now : Nat)
      (r : Permission) (s : AppState),
      jsTrim s.newTitle = "" →
      step hasAPI parse (Event.add now r) s = s := by
  intro hasAPI parse now r s h
  show addTodo hasAPI parse now r s = s
  unfold addTodo
  simp [h]

/-- Witness for C7: adding with a whitespace-only title is a no-op. -/
theorem addTodo_blank_title_noop_witness :
    jsTrim "  " = "" ∧
      step false (fun _ _ => 0) (Event.add 7 Permission.denied)
        { initState with newTitle := "  " } =
        { initState with newTitle := "  " } :=
  ⟨by decide,
    addTodo_blank_title_noop false (fun _ _ => 0) 7 Permission.denied
      { initState with newTitle := "  " } (by decide)⟩

/-- C8: `toggleTodo id` flips `completed` for the task(s) whose identifier
equals `id` (pointwise characterization over positions) and is a no-op when
no task has that identifier. -/
theorem toggleTodo_spec :
    ∀ (id : Nat) (l : List Todo),
      ((∀ t ∈ l, t.id ≠ id) → toggleTodo id l = l) ∧
      (toggleTodo id l).length = l.length ∧
      (∀ i : Nat,
        (toggleTodo id l)[i]? =
          (l[i]?).map
            (fun t => if t.id = id then { t with completed := !t.completed } else t)) := by
  intro id l
  refine ⟨toggleTodo_noop id l, ?_, toggleTodo_getElem? id l⟩
  unfold toggleTodo
  simp

/-- Witness for C8: a missing identifier is a no-op, and toggling a present
identifier flips `completed` at its position. -/
theorem toggleTodo_spec_witness :
    ((∀ t ∈ exTodoList, t.id ≠ 9) ∧ toggleTodo 9 exTodoList = exTodoList) ∧
      (toggleTodo 5 exTodoList)[0]?.map (fun t => t.completed) = some true := by
  refine ⟨⟨by decide, (toggleTodo_spec 9 exTodoList).1 (by decide)⟩, ?_⟩
  rw [(toggleTodo_spec 5 exTodoList).2.2 0]
  decide

/-- C10: `toggleTodo` preserves list length and order and leaves every task
with a different identifier untouched; the matching task changes only its
`completed` field (identifier, title, tags, color, due timestamp and
reminder flag are preserved).  `deleteTodo` keeps the remaining tasks in
their relative order, each entirely unchanged, and keeps every task whose
identifier differs. -/
theorem toggle_delete_frame :
    ∀ (id : Nat) (l : List Todo),
      (toggleTodo id l).length = l.length ∧
      (∀ (i : Nat) (t : Todo), l[i]? = some t → t.id ≠ id →
        (toggleTodo id l)[i]? = some t) ∧
      (∀ (i : Nat) (t : Todo), l[i]? = some t → t.id = id →
        ∃ t', (toggleTodo id l)[i]? = some t' ∧
          t'.completed = !t.completed ∧ t'.id = t.id ∧ t'.title = t.title ∧
          t'.tags = t.tags ∧ t'.color = t.color ∧ t'.dueDate = t.dueDate ∧
          t'.reminderShown = t.reminderShown) ∧
      (deleteTodo id l).Sublist l ∧
      (∀ t ∈ l, t.id ≠ id → t ∈ deleteTodo id l) := by
  intro id l
  refine ⟨?_, ?_, ?_, deleteTodo_sublist id l, ?_⟩
  · unfold toggleTodo; simp
  · intro i t h hne
    rw [toggleTodo_getElem? id l i, h]
    simp [hne]
  · intro i t h heq
    refine ⟨{ t with completed := !t.completed }, ?_, rfl, rfl, rfl, rfl, rfl, rfl, rfl⟩
    rw [toggleTodo_getElem? id l i, h]
    simp [heq]
  · intro t ht hne
    exact (mem_deleteTodo id l t).mpr ⟨ht, hne⟩

/-- Witness for C10 at concrete inputs. -/
theorem toggle_delete_frame_witness :
    (toggleTodo 9 exTodoList)[0]? = some exTodo ∧
      (toggleTodo 5 exTodoList)[0]? =
        some { exTodo with completed := !exTodo.completed } ∧
      exTodo ∈ deleteTodo 9 exTodoList := by
  refine ⟨(toggle_delete_frame 9 exTodoList).2.1 0 exTodo (by decide) (by decide), ?_, ?_⟩
  · obtain ⟨t', h1, h2, h3, h4, h5, h6, h7, h8⟩ :=
      (toggle_delete_frame 5 exTodoList).2.2.1 0 exTodo (by decide) (by decide)
    rw [h1]
    have : t' = { exTodo with completed := !exTodo.completed } := by
      cases t'
      simp only [Todo.mk.injEq] at h2 h3 h4 h5 h6 h7 h8 ⊢
      exact ⟨h3, h4, h2, h5, h6, h7, h8⟩
    rw [this]
  · exact (toggle_delete_frame 9 exTodoList).2.2.2.2 exTodo (by decide) (by decide)
